import Mathlib

set_option maxHeartbeats 1000000

/- Shallow embedding of the Outfest_nss detection service.
   Sources: src/changethon_all_models/test.py (three-model service with
   incident logging) and src/main.py (single-model variant).
   Confidences are modelled as rationals; only their order matters to the
   code (threshold comparisons and running maxima). -/

/-- Bounding box in xyxy order with rational pixel coordinates, modelling
the value of `b.xyxy[0].tolist()`. -/
structure Box4 where
  x1 : ℚ
  y1 : ℚ
  x2 : ℚ
  y2 : ℚ
  deriving DecidableEq

/-- Integer bounding box, modelling `[int(x) for x in b.xyxy[0].tolist()]`
(test.py line 115). -/
structure IBox where
  x1 : ℤ
  y1 : ℤ
  x2 : ℤ
  y2 : ℤ
  deriving DecidableEq

/-- Python `int()` truncation toward zero on a rational. -/
def pyInt (q : ℚ) : ℤ :=
  Int.tdiv q.num (q.den : ℤ)

/-- Integer box obtained by truncating each coordinate (test.py line 115). -/
def truncBox (b : Box4) : IBox :=
  ⟨pyInt b.x1, pyInt b.y1, pyInt b.x2, pyInt b.y2⟩

/-- The box as the 4-element list that is spread into a CSV row. -/
def Box4.toList (b : Box4) : List ℚ :=
  [b.x1, b.y1, b.x2, b.y2]

/-- The integer box as a 4-element list of rationals. -/
def IBox.toRatList (b : IBox) : List ℚ :=
  [(b.x1 : ℚ), (b.y1 : ℚ), (b.x2 : ℚ), (b.y2 : ℚ)]

/-- Decoded frame: a successful `cv2.imdecode` result, with height and
width (`frame.shape[:2]`). -/
structure Frame where
  h : ℕ
  w : ℕ
  deriving DecidableEq

/-- Length of the Python slice `a[l:u]` over an axis of size `n`: negative
indices wrap from the end, then both bounds clamp to `[0, n]`. -/
def sliceLen (n : ℕ) (l u : ℤ) : ℕ :=
  ((if u < 0 then max ((n : ℤ) + u) 0 else min u (n : ℤ)) -
   (if l < 0 then max ((n : ℤ) + l) 0 else min l (n : ℤ))).toNat

/-- Size of the crop `frame[b.y1:b.y2, b.x1:b.x2]` as a 3-channel numpy
array (test.py lines 116 and 119). -/
def cropSize (frame : Frame) (b : IBox) : ℕ :=
  sliceLen frame.h b.y1 b.y2 * sliceLen frame.w b.x1 b.x2 * 3

/-- One raw detector output: resolved class label, confidence, box. -/
structure RawDetection where
  label : String
  conf : ℚ
  box : Box4
  deriving DecidableEq

/-- One item of an EasyOCR `readtext` result; `o[0][1]` selects the text
of the first item (test.py line 123). -/
structure OcrItem where
  text : String
  conf : ℚ
  deriving DecidableEq

/-- Outcome of `ocr_reader.readtext(crop)`: it may raise or return a list
of items (test.py lines 120-125). -/
inductive OcrOutcome where
  | raises
  | returns (items : List OcrItem)
  deriving DecidableEq

/-- Text extractor capability as a function of the frame and the crop box
(the crop is a deterministic function of these two). -/
def OcrReader : Type :=
  Frame → IBox → OcrOutcome

/-- Python `str.lower()` on a label: character-wise lowering. -/
def pyLower (s : String) : String :=
  String.mk (s.data.map Char.toLower)

/-- Weapon confidence threshold (test.py line 54). -/
def WEAPON_CONF : ℚ := Rat.divInt 9 10

/-- Plate confidence threshold (test.py line 55). -/
def PLATE_CONF : ℚ := Rat.divInt 7 10

/-- Behaviour confidence threshold (test.py line 56). -/
def BEHAV_CONF : ℚ := Rat.divInt 4 5

/-- Plate text extraction with sentinel fallback (test.py lines 118-125):
`text = "DETECTED"`, overwritten only when an OCR reader is present, the
crop is non-empty, `readtext` does not raise and returns a non-empty list. -/
def plateText (ocr : Option OcrReader) (frame : Frame) (b : IBox) : String :=
  match ocr with
  | none => "DETECTED"
  | some reader =>
    if 0 < cropSize frame b then
      match reader frame b with
      | OcrOutcome.raises => "DETECTED"
      | OcrOutcome.returns [] => "DETECTED"
      | OcrOutcome.returns (item :: _) => item.text
    else "DETECTED"

/-- A finding included in the response payload. -/
structure Finding where
  label : String
  confidence : ℚ
  box : List ℚ
  deriving DecidableEq

/-- The plate payload (test.py line 131). -/
structure PlatePayload where
  text : String
  confidence : ℚ
  box : IBox
  deriving DecidableEq

/-- The JSON body returned by test.py's detect (lines 165-172). -/
structure AggregatedResult where
  detected : Bool
  confidence : ℚ
  weaponType : String
  boundingBoxes : List Finding
  plate : Option PlatePayload
  suspicious : List Finding
  deriving DecidableEq

/-- HTTP-level outcome of a detect call: 200 with a result body, 400 with
an error message, or 500 with an error message. -/
inductive Response where
  | ok (result : AggregatedResult)
  | clientErr (msg : String)
  | serverErr (msg : String)
  deriving DecidableEq

/-- Whether the response is a 200 result. -/
def Response.isOk : Response → Bool
  | Response.ok _ => true
  | _ => false

/-- Whether the response is a 400 client error. -/
def Response.isClientErr : Response → Bool
  | Response.clientErr _ => true
  | _ => false

/-- One row appended to incidents.csv by `log_event` (test.py lines 64-66),
without the timestamp column. -/
structure Row where
  category : String
  label : String
  conf : ℚ
  box : List ℚ
  deriving DecidableEq

/-- The three optional detector slots and the optional OCR reader, each
`none` when `load_model` found no file (test.py lines 32-51). A slot's
value is the detector's output list on the current frame, flattened in
iteration order over `results` and `r.boxes`. -/
structure Models where
  weapons : Option (List RawDetection)
  plate : Option (List RawDetection)
  behaviour : Option (List RawDetection)
  ocr : Option OcrReader

/-- Weapon threshold gate (test.py line 88: `if conf < WEAPON_CONF: continue`). -/
def passW (d : RawDetection) : Bool := !(decide (d.conf < WEAPON_CONF))

/-- Plate threshold gate (test.py line 112). -/
def passP (d : RawDetection) : Bool := !(decide (d.conf < PLATE_CONF))

/-- Behaviour gate: threshold plus the normalized-label "normal" exclusion
(test.py lines 145 and 152). -/
def passB (d : RawDetection) : Bool :=
  !(decide (d.conf < BEHAV_CONF)) && !(pyLower d.label == "normal")

/-- Threshold gate of main.py line 46 (`if conf > 0.75:`). -/
def passMain (d : RawDetection) : Bool := decide (Rat.divInt 3 4 < d.conf)

/-- Request-local state of the weapon pass (test.py lines 76-79). -/
structure WeaponSt where
  boxes : List Finding
  detected : Bool
  maxConf : ℚ
  weaponType : String
  deriving DecidableEq

/-- Initial weapon-pass state. -/
def wInit : WeaponSt := ⟨[], false, 0, "unknown"⟩

/-- The finding appended for one passing weapon detection (test.py line 100). -/
def mkFinding (d : RawDetection) : Finding :=
  ⟨d.label, d.conf, d.box.toList⟩

/-- The finding appended for one passing behaviour detection, with the
case-normalized label (test.py lines 149 and 156-160). -/
def mkBehaviour (d : RawDetection) : Finding :=
  ⟨pyLower d.label, d.conf, d.box.toList⟩

/-- CSV row of one weapon finding (test.py line 101). -/
def weaponRow (d : RawDetection) : Row :=
  { category := "WEAPON", label := d.label, conf := d.conf, box := d.box.toList }

/-- CSV row of one behaviour finding (test.py line 163). -/
def behaviourRow (d : RawDetection) : Row :=
  { category := "BEHAVIOUR", label := pyLower d.label, conf := d.conf, box := d.box.toList }

/-- Body of the weapon loop once a detection passed the threshold
(test.py lines 94-100). -/
def weaponUpd (st : WeaponSt) (d : RawDetection) : WeaponSt :=
  { boxes := st.boxes ++ [mkFinding d],
    detected := true,
    maxConf := if st.maxConf < d.conf then d.conf else st.maxConf,
    weaponType := if st.maxConf < d.conf then d.label else st.weaponType }

/-- Pure accumulation of the weapon-style loop over a detection list,
parametrized by the threshold gate (shared shape of test.py lines 86-100
and main.py lines 42-56). -/
def weaponFoldOn (pass : RawDetection → Bool) : List RawDetection → WeaponSt → WeaponSt
  | [], st => st
  | d :: rest, st => weaponFoldOn pass rest (if pass d then weaponUpd st d else st)

/-- Weapon pass with incident logging (test.py lines 84-101). A failing
log sink (`logErr = some e`) behaves like `log_event` raising: the
exception aborts the pass, carrying the rows already durably written. -/
def weaponLoop (logErr : Option String) :
    List RawDetection → WeaponSt → List Row →
    Except (String × List Row) (WeaponSt × List Row)
  | [], st, log => Except.ok (st, log)
  | d :: rest, st, log =>
    if d.conf < WEAPON_CONF then
      weaponLoop logErr rest st log
    else
      match logErr with
      | none => weaponLoop logErr rest (weaponUpd st d) (log ++ [weaponRow d])
      | some e => Except.error (e, log)

/-- Behaviour pass with incident logging (test.py lines 140-163). -/
def behavLoop (logErr : Option String) :
    List RawDetection → List Finding → List Row →
    Except (String × List Row) (List Finding × List Row)
  | [], susp, log => Except.ok (susp, log)
  | d :: rest, susp, log =>
    if d.conf < BEHAV_CONF then
      behavLoop logErr rest susp log
    else if pyLower d.label == "normal" then
      behavLoop logErr rest susp log
    else
      match logErr with
      | none => behavLoop logErr rest (susp ++ [mkBehaviour d]) (log ++ [behaviourRow d])
      | some e => Except.error (e, log)

/-- The running best plate candidate `best = (conf, box, text)`
(test.py lines 108 and 127-128). -/
structure PlateBest where
  conf : ℚ
  box : IBox
  text : String
  deriving DecidableEq

/-- The candidate tuple built for one passing plate detection
(test.py lines 115-128). -/
def mkBest (ocr : Option OcrReader) (frame : Frame) (d : RawDetection) : PlateBest :=
  { conf := d.conf, box := truncBox d.box,
    text := plateText ocr frame (truncBox d.box) }

/-- The plate loop (test.py lines 109-128): keep the strictly greater
confidence, so the first-seen candidate wins exact ties. -/
def plateGo (ocr : Option OcrReader) (frame : Frame) :
    List RawDetection → Option PlateBest → Option PlateBest
  | [], best => best
  | d :: rest, best =>
    if d.conf < PLATE_CONF then
      plateGo ocr frame rest best
    else
      match best with
      | none => plateGo ocr frame rest (some (mkBest ocr frame d))
      | some b =>
        if b.conf < d.conf then plateGo ocr frame rest (some (mkBest ocr frame d))
        else plateGo ocr frame rest (some b)

/-- The plate loop restricted to detections already past the threshold. -/
def pickGo (ocr : Option OcrReader) (frame : Frame) :
    List RawDetection → Option PlateBest → Option PlateBest
  | [], best => best
  | d :: rest, best =>
    match best with
    | none => pickGo ocr frame rest (some (mkBest ocr frame d))
    | some b =>
      if b.conf < d.conf then pickGo ocr frame rest (some (mkBest ocr frame d))
      else pickGo ocr frame rest (some b)

/-- First maximal-confidence element of `a :: l` under strict replacement. -/
def argFirstMax (a : RawDetection) : List RawDetection → RawDetection
  | [] => a
  | d :: rest => if a.conf < d.conf then argFirstMax d rest else argFirstMax a rest

/-- The plate payload built from the retained candidate (test.py line 131). -/
def payloadOf (b : PlateBest) : PlatePayload :=
  { text := b.text, confidence := b.conf, box := b.box }

/-- CSV row of the retained plate candidate (test.py line 133): the label
column holds the extracted text. -/
def plateRowB (b : PlateBest) : Row :=
  { category := "PLATE", label := b.text, conf := b.conf, box := b.box.toRatList }

/-- CSV row corresponding to a plate payload. -/
def plateRowOf (p : PlatePayload) : Row :=
  { category := "PLATE", label := p.text, conf := p.confidence, box := p.box.toRatList }

/-- Message of the AttributeError raised by `frame.shape` when
`cv2.imdecode` returned None (test.py lines 72-73), as stringified by the
generic handler. -/
def shapeErrMsg : String := "NoneType object has no attribute shape"

/-- The detect endpoint of test.py (lines 68-176). `decoded` is the
`cv2.imdecode` result (`none` for empty or undecodable bytes); `logErr`
is `some e` when the CSV sink raises with message `e` on any append. -/
def detect (m : Models) (logErr : Option String) (decoded : Option Frame) :
    Response × List Row :=
  match decoded with
  | none => (Response.serverErr shapeErrMsg, [])
  | some frame =>
    match (match m.weapons with
           | none => Except.ok (wInit, ([] : List Row))
           | some dets => weaponLoop logErr dets wInit []) with
    | Except.error (e, log) => (Response.serverErr e, log)
    | Except.ok (wst, log1) =>
      match (match m.plate with
             | none => Except.ok ((none : Option PlatePayload), log1)
             | some dets =>
               match plateGo m.ocr frame dets none with
               | none => Except.ok ((none : Option PlatePayload), log1)
               | some b =>
                 match logErr with
                 | none => Except.ok (some (payloadOf b), log1 ++ [plateRowB b])
                 | some e => Except.error (e, log1)) with
      | Except.error (e, log) => (Response.serverErr e, log)
      | Except.ok (pp, log2) =>
        match (match m.behaviour with
               | none => Except.ok (([] : List Finding), log2)
               | some dets => behavLoop logErr dets [] log2) with
        | Except.error (e, log) => (Response.serverErr e, log)
        | Except.ok (susp, log3) =>
          (Response.ok { detected := wst.detected, confidence := wst.maxConf,
                         weaponType := wst.weaponType, boundingBoxes := wst.boxes,
                         plate := pp, suspicious := susp }, log3)

/-- The JSON body returned by main.py's detect (lines 58-63). -/
structure MainResult where
  detected : Bool
  confidence : ℚ
  weaponType : String
  boundingBoxes : List Finding
  deriving DecidableEq

/-- HTTP-level outcome of main.py's detect. -/
inductive MainResponse where
  | ok (result : MainResult)
  | clientErr (msg : String)
  | serverErr (msg : String)
  deriving DecidableEq

/-- The detect endpoint of main.py (lines 20-67): explicit empty-bytes and
decode-failure checks with 400 responses, one detection loop, no logging. -/
def mainDetect (model : List RawDetection) (bytesEmpty : Bool)
    (decoded : Option Frame) : MainResponse :=
  if bytesEmpty then
    MainResponse.clientErr "No image data received"
  else
    match decoded with
    | none => MainResponse.clientErr "Failed to decode image"
    | some _ =>
      MainResponse.ok
        { detected := (weaponFoldOn passMain model wInit).detected,
          confidence := (weaponFoldOn passMain model wInit).maxConf,
          weaponType := (weaponFoldOn passMain model wInit).weaponType,
          boundingBoxes := (weaponFoldOn passMain model wInit).boxes }

/-- Weapon detections of the weapons slot (empty when disabled). -/
def weaponDets (m : Models) : List RawDetection := m.weapons.getD []

/-- Plate detections of the plate slot (empty when disabled). -/
def plateDets (m : Models) : List RawDetection := m.plate.getD []

/-- Behaviour detections of the behaviour slot (empty when disabled). -/
def behavDets (m : Models) : List RawDetection := m.behaviour.getD []

/-- Pure description of the aggregated result of a successful request. -/
def aggResult (m : Models) (frame : Frame) : AggregatedResult :=
  { detected := (weaponFoldOn passW (weaponDets m) wInit).detected,
    confidence := (weaponFoldOn passW (weaponDets m) wInit).maxConf,
    weaponType := (weaponFoldOn passW (weaponDets m) wInit).weaponType,
    boundingBoxes := (weaponFoldOn passW (weaponDets m) wInit).boxes,
    plate := (plateGo m.ocr frame (plateDets m) none).map payloadOf,
    suspicious := ((behavDets m).filter passB).map mkBehaviour }

/-- The 0-or-1 plate rows of a request. -/
def plateRows (o : Option PlateBest) : List Row :=
  match o with
  | none => []
  | some b => [plateRowB b]

/-- Pure description of the rows a successful request appends. -/
def fullLog (m : Models) (frame : Frame) : List Row :=
  ((weaponDets m).filter passW).map weaponRow
    ++ plateRows (plateGo m.ocr frame (plateDets m) none)
    ++ ((behavDets m).filter passB).map behaviourRow

/-- The result returned when no detection passes any gate. -/
def emptyResult : AggregatedResult :=
  { detected := false, confidence := 0, weaponType := "unknown",
    boundingBoxes := [], plate := none, suspicious := [] }

/-- Frame used in concrete evaluations. -/
def frame0 : Frame := ⟨100, 100⟩

/-- Box used in concrete evaluations. -/
def box0 : Box4 := ⟨10, 20, 30, 40⟩

/-- Second box used in concrete evaluations. -/
def boxB : Box4 := ⟨5, 6, 7, 8⟩

/-- Weapon detection at confidence 0.95. -/
def dKnife : RawDetection := ⟨"knife", Rat.divInt 19 20, box0⟩

/-- Plate detection at confidence 0.72. -/
def dP72 : RawDetection := ⟨"plate", Rat.divInt 72 100, box0⟩

/-- Plate detection at confidence 0.91. -/
def dP91 : RawDetection := ⟨"plate", Rat.divInt 91 100, boxB⟩

/-- Behaviour detection labelled "Normal" at confidence 0.99. -/
def dNormal : RawDetection := ⟨"Normal", Rat.divInt 99 100, box0⟩

/-- Behaviour detection labelled "Fight" at confidence 0.9. -/
def dFight : RawDetection := ⟨"Fight", Rat.divInt 9 10, box0⟩

/-- All three slots and the OCR reader disabled. -/
def mAllNone : Models := ⟨none, none, none, none⟩

/-- Only the weapons slot loaded, with one passing detection. -/
def mC1 : Models := ⟨some [dKnife], none, none, none⟩

/-- Only the plate slot loaded, with two passing detections. -/
def mTwoPlates : Models := ⟨none, some [dP72, dP91], none, none⟩

/-- Only the behaviour slot loaded, with one "Normal" detection. -/
def mC4 : Models := ⟨none, none, some [dNormal], none⟩

/-- All three detector slots loaded, OCR absent. -/
def mC10 : Models := ⟨some [dKnife], some [dP91], some [dFight], none⟩

/-- Expected result of a request against `mC1`. -/
def resC1 : AggregatedResult :=
  { detected := true, confidence := Rat.divInt 19 20, weaponType := "knife",
    boundingBoxes := [⟨"knife", Rat.divInt 19 20, [10, 20, 30, 40]⟩],
    plate := none, suspicious := [] }

/-- Expected log of a request against `mC1`. -/
def logC1 : List Row :=
  [{ category := "WEAPON", label := "knife", conf := Rat.divInt 19 20,
     box := [10, 20, 30, 40] }]

/-- Expected result of a main.py request against `[dKnife]`. -/
def resM1 : MainResult :=
  { detected := true, confidence := Rat.divInt 19 20, weaponType := "knife",
    boundingBoxes := [⟨"knife", Rat.divInt 19 20, [10, 20, 30, 40]⟩] }

/-- Expected plate payload of a request against `mTwoPlates`. -/
def pC2 : PlatePayload :=
  { text := "DETECTED", confidence := Rat.divInt 91 100, box := ⟨5, 6, 7, 8⟩ }

/-- Expected result of a request against `mTwoPlates`. -/
def resC2 : AggregatedResult :=
  { detected := false, confidence := 0, weaponType := "unknown",
    boundingBoxes := [], plate := some pC2, suspicious := [] }

/-- Expected log of a request against `mTwoPlates`. -/
def logC2 : List Row :=
  [{ category := "PLATE", label := "DETECTED", conf := Rat.divInt 91 100,
     box := [5, 6, 7, 8] }]

/-- Expected result of a request against `mC10`. -/
def resC10 : AggregatedResult :=
  { detected := true, confidence := Rat.divInt 19 20, weaponType := "knife",
    boundingBoxes := [⟨"knife", Rat.divInt 19 20, [10, 20, 30, 40]⟩],
    plate := some pC2,
    suspicious := [⟨"fight", Rat.divInt 9 10, [10, 20, 30, 40]⟩] }

/-- Expected log of a request against `mC10`. -/
def logC10 : List Row :=
  [{ category := "WEAPON", label := "knife", conf := Rat.divInt 19 20,
     box := [10, 20, 30, 40] },
   { category := "PLATE", label := "DETECTED", conf := Rat.divInt 91 100,
     box := [5, 6, 7, 8] },
   { category := "BEHAVIOUR", label := "fight", conf := Rat.divInt 9 10,
     box := [10, 20, 30, 40] }]

/-- OCR reader that always raises. -/
def readerRaises : OcrReader := fun _ _ => OcrOutcome.raises

/-- OCR reader that always returns no items. -/
def readerEmpty : OcrReader := fun _ _ => OcrOutcome.returns []

/-- A concrete OCR item. -/
def itemKA : OcrItem := ⟨"KA01AB1234", Rat.divInt 9 10⟩

/-- OCR reader that always returns `itemKA`. -/
def readerKA : OcrReader := fun _ _ => OcrOutcome.returns [itemKA]

/-- Integer crop box with a non-empty crop inside `frame0`. -/
def ibox0 : IBox := ⟨10, 20, 30, 40⟩

/-- Integer crop box with zero width, hence an empty crop. -/
def iboxEmpty : IBox := ⟨10, 20, 10, 40⟩

/-- Gate characterization: a weapon detection passes iff its confidence
reaches the threshold. -/
theorem passW_iff (d : RawDetection) : passW d = true ↔ WEAPON_CONF ≤ d.conf := by
  simp [passW, not_lt]

/-- Gate characterization for the plate threshold. -/
theorem passP_iff (d : RawDetection) : passP d = true ↔ PLATE_CONF ≤ d.conf := by
  simp [passP, not_lt]

/-- Gate characterization for the behaviour pass. -/
theorem passB_iff (d : RawDetection) :
    passB d = true ↔ (BEHAV_CONF ≤ d.conf ∧ pyLower d.label ≠ "normal") := by
  simp [passB, not_lt]

/-- The weapon threshold is positive. -/
theorem weapon_conf_pos : (0 : ℚ) < WEAPON_CONF := by
  rw [WEAPON_CONF, Rat.divInt_eq_div]; norm_num

/-- A passing weapon detection has positive confidence. -/
theorem passW_pos (d : RawDetection) (h : passW d = true) : 0 < d.conf :=
  lt_of_lt_of_le weapon_conf_pos ((passW_iff d).mp h)

/-- A detection passing main.py's gate has positive confidence. -/
theorem passMain_pos (d : RawDetection) (h : passMain d = true) : 0 < d.conf := by
  have h34 : (0 : ℚ) < Rat.divInt 3 4 := by rw [Rat.divInt_eq_div]; norm_num
  have := of_decide_eq_true h
  exact lt_trans h34 this

/-- With a healthy log sink the weapon pass is the pure fold plus one CSV
row per passing detection, in order. -/
theorem weaponLoop_none_eq (dets : List RawDetection) :
    ∀ (st : WeaponSt) (log : List Row),
      weaponLoop none dets st log =
        Except.ok (weaponFoldOn passW dets st,
                   log ++ (dets.filter passW).map weaponRow) := by
  induction dets with
  | nil => intro st log; simp [weaponLoop, weaponFoldOn]
  | cons d rest ih =>
    intro st log
    by_cases hc : d.conf < WEAPON_CONF
    · have hp : passW d = false := by simp [passW, hc]
      simp [weaponLoop, weaponFoldOn, hc, hp, ih]
    · have hp : passW d = true := by simp [passW, hc]
      simp [weaponLoop, weaponFoldOn, hc, hp, ih, List.append_assoc]

/-- With a failing log sink the weapon pass raises at the first passing
detection, leaving the log untouched, and otherwise changes nothing. -/
theorem weaponLoop_some_eq (e : String) (dets : List RawDetection) :
    ∀ (st : WeaponSt) (log : List Row),
      weaponLoop (some e) dets st log =
        if dets.any passW then Except.error (e, log) else Except.ok (st, log) := by
  induction dets with
  | nil => intro st log; simp [weaponLoop]
  | cons d rest ih =>
    intro st log
    by_cases hc : d.conf < WEAPON_CONF
    · have hp : passW d = false := by simp [passW, hc]
      simp [weaponLoop, hc, hp, ih]
    · have hp : passW d = true := by simp [passW, hc]
      simp [weaponLoop, hc, hp]

/-- With a healthy log sink the behaviour pass appends one finding and one
CSV row per passing, non-"normal" detection, in order. -/
theorem behavLoop_none_eq (dets : List RawDetection) :
    ∀ (susp : List Finding) (log : List Row),
      behavLoop none dets susp log =
        Except.ok (susp ++ (dets.filter passB).map mkBehaviour,
                   log ++ (dets.filter passB).map behaviourRow) := by
  induction dets with
  | nil => intro susp log; simp [behavLoop]
  | cons d rest ih =>
    intro susp log
    by_cases hc : d.conf < BEHAV_CONF
    · have hp : passB d = false := by simp [passB, hc]
      simp [behavLoop, hc, hp, ih]
    · by_cases hn : pyLower d.label = "normal"
      · have hp : passB d = false := by simp [passB, hc, hn]
        simp [behavLoop, hc, hn, hp, ih]
      · have hp : passB d = true := by simp [passB, hc, hn]
        simp [behavLoop, hc, hn, hp, ih, List.append_assoc]

/-- With a failing log sink the behaviour pass raises at the first passing
non-"normal" detection, leaving the log untouched. -/
theorem behavLoop_some_eq (e : String) (dets : List RawDetection) :
    ∀ (susp : List Finding) (log : List Row),
      behavLoop (some e) dets susp log =
        if dets.any passB then Except.error (e, log) else Except.ok (susp, log) := by
  induction dets with
  | nil => intro susp log; simp [behavLoop]
  | cons d rest ih =>
    intro susp log
    by_cases hc : d.conf < BEHAV_CONF
    · have hp : passB d = false := by simp [passB, hc]
      simp [behavLoop, hc, hp, ih]
    · by_cases hn : pyLower d.label = "normal"
      · have hp : passB d = false := by simp [passB, hc, hn]
        simp [behavLoop, hc, hn, hp, ih]
      · have hp : passB d = true := by simp [passB, hc, hn]
        simp [behavLoop, hc, hn, hp]

/-- The candidate of a passing plate detection keeps its confidence. -/
@[simp] theorem mkBest_conf (ocr : Option OcrReader) (frame : Frame) (d : RawDetection) :
    (mkBest ocr frame d).conf = d.conf := rfl

/-- The plate loop only looks at detections past the threshold. -/
theorem plateGo_eq_pickGo (ocr : Option OcrReader) (frame : Frame)
    (dets : List RawDetection) :
    ∀ best, plateGo ocr frame dets best = pickGo ocr frame (dets.filter passP) best := by
  induction dets with
  | nil => intro best; simp [plateGo, pickGo]
  | cons d rest ih =>
    intro best
    by_cases hc : d.conf < PLATE_CONF
    · have hp : passP d = false := by simp [passP, hc]
      simp [plateGo, hc, hp, ih]
    · have hp : passP d = true := by simp [passP, hc]
      cases best with
      | none => simp [plateGo, pickGo, hc, hp, ih]
      | some b =>
        by_cases hb : b.conf < d.conf <;> simp [plateGo, pickGo, hc, hp, hb, ih]

/-- Strict-greater replacement keeps exactly the first maximal candidate. -/
theorem pickGo_arg (ocr : Option OcrReader) (frame : Frame) (l : List RawDetection) :
    ∀ a, pickGo ocr frame l (some (mkBest ocr frame a)) =
      some (mkBest ocr frame (argFirstMax a l)) := by
  induction l with
  | nil => intro a; simp [pickGo, argFirstMax]
  | cons d rest ih =>
    intro a
    by_cases hb : a.conf < d.conf <;> simp [pickGo, argFirstMax, hb, ih]

/-- On a non-empty gated list the plate loop returns the candidate of the
first maximal detection. -/
theorem pickGo_cons (ocr : Option OcrReader) (frame : Frame)
    (q : RawDetection) (qs : List RawDetection) :
    pickGo ocr frame (q :: qs) none = some (mkBest ocr frame (argFirstMax q qs)) := by
  simp [pickGo, pickGo_arg]

/-- Every element of `a :: l` has confidence at most that of the first
maximal element. -/
theorem argFirstMax_le (l : List RawDetection) :
    ∀ a, ∀ x ∈ a :: l, x.conf ≤ (argFirstMax a l).conf := by
  induction l with
  | nil =>
    intro a x hx
    have : x = a := by simpa using hx
    simp [argFirstMax, this]
  | cons d rest ih =>
    intro a x hx
    by_cases hb : a.conf < d.conf
    · simp only [argFirstMax, if_pos hb]
      rcases List.mem_cons.mp hx with hxa | hx'
      · exact hxa ▸ le_trans hb.le (ih d d (List.mem_cons_self d rest))
      · exact ih d x hx'
    · simp only [argFirstMax, if_neg hb]
      rcases List.mem_cons.mp hx with hxa | hx'
      · exact hxa ▸ ih a a (List.mem_cons_self a rest)
      · rcases List.mem_cons.mp hx' with hxd | hx''
        · exact hxd ▸ le_trans (not_lt.mp hb) (ih a a (List.mem_cons_self a rest))
        · exact ih a x (List.mem_cons.mpr (Or.inr hx''))

/-- First-seen-wins: the list splits at the retained element, and everything
before it has strictly smaller confidence. -/
theorem argFirstMax_split (l : List RawDetection) :
    ∀ a, ∃ l1 l2, a :: l = l1 ++ (argFirstMax a l) :: l2 ∧
      ∀ x ∈ l1, x.conf < (argFirstMax a l).conf := by
  induction l with
  | nil =>
    intro a
    exact ⟨[], [], by simp [argFirstMax], by simp⟩
  | cons d rest ih =>
    intro a
    by_cases hb : a.conf < d.conf
    · obtain ⟨l1, l2, heq, hlt⟩ := ih d
      refine ⟨a :: l1, l2, ?_, ?_⟩
      · simp only [argFirstMax, if_pos hb, List.cons_append]
        rw [← heq]
      · intro x hx
        simp only [argFirstMax, if_pos hb]
        rcases List.mem_cons.mp hx with hxa | hx'
        · exact hxa ▸ lt_of_lt_of_le hb (argFirstMax_le rest d d (List.mem_cons_self d rest))
        · exact hlt x hx'
    · obtain ⟨l1, l2, heq, hlt⟩ := ih a
      cases l1 with
      | nil =>
        simp only [List.nil_append] at heq
        have ha : a = argFirstMax a rest := (List.cons.injEq _ _ _ _).mp heq |>.1
        refine ⟨[], d :: rest, ?_, by simp⟩
        simp only [argFirstMax, if_neg hb, List.nil_append]
        rw [← ha]
      | cons b t =>
        simp only [List.cons_append] at heq
        have hab : b = a := ((List.cons.injEq _ _ _ _).mp heq |>.1).symm
        subst hab
        have hrest : rest = t ++ argFirstMax b rest :: l2 :=
          (List.cons.injEq _ _ _ _).mp heq |>.2
        refine ⟨b :: d :: t, l2, ?_, ?_⟩
        · simp only [argFirstMax, if_neg hb, List.cons_append]
          rw [← hrest]
        · intro x hx
          simp only [argFirstMax, if_neg hb]
          have har : b.conf < (argFirstMax b rest).conf :=
            hlt b (List.mem_cons_self b t)
          rcases List.mem_cons.mp hx with hxa | hx'
          · rw [hxa]; exact har
          · rcases List.mem_cons.mp hx' with hxd | hx''
            · rw [hxd]; exact lt_of_le_of_lt (not_lt.mp hb) har
            · exact hlt x (List.mem_cons.mpr (Or.inr hx''))

/-- The retained element is one of the candidates. -/
theorem argFirstMax_mem (l : List RawDetection) (a : RawDetection) :
    argFirstMax a l ∈ a :: l := by
  obtain ⟨l1, l2, heq, _⟩ := argFirstMax_split l a
  rw [heq]
  exact List.mem_append_right l1 (List.mem_cons_self _ _)

/-- Invariant of the weapon-pass state tying `detected`, `max_conf` and
`weapon_type` to the collected boxes. -/
def WInv (st : WeaponSt) : Prop :=
  (st.detected = true ↔ st.boxes ≠ []) ∧
  (st.boxes = [] → st.maxConf = 0 ∧ st.weaponType = "unknown") ∧
  (∀ f ∈ st.boxes, f.confidence ≤ st.maxConf) ∧
  (st.boxes ≠ [] → ∃ f ∈ st.boxes, f.confidence = st.maxConf ∧ f.label = st.weaponType)

/-- The initial state satisfies the invariant. -/
theorem winv_init : WInv wInit := by
  refine ⟨?_, ?_, ?_, ?_⟩ <;> simp [wInit]

/-- One loop-body execution preserves the invariant, provided the incoming
detection has positive confidence. -/
theorem winv_upd (st : WeaponSt) (d : RawDetection) (hpos : 0 < d.conf)
    (h : WInv st) : WInv (weaponUpd st d) := by
  obtain ⟨h1, h2, h3, h4⟩ := h
  by_cases hlt : st.maxConf < d.conf
  · refine ⟨by simp [weaponUpd], by simp [weaponUpd], ?_, ?_⟩
    · intro f hf
      simp only [weaponUpd] at hf ⊢
      rw [if_pos hlt]
      rcases List.mem_append.mp hf with hf' | hf'
      · exact le_trans (h3 f hf') hlt.le
      · have hfd : f = mkFinding d := by simpa using hf'
        simp [hfd, mkFinding]
    · intro _
      refine ⟨mkFinding d, ?_, ?_, ?_⟩
      · simp [weaponUpd]
      · simp [weaponUpd, mkFinding, if_pos hlt]
      · simp [weaponUpd, mkFinding, if_pos hlt]
  · have hle : d.conf ≤ st.maxConf := not_lt.mp hlt
    have hne : st.boxes ≠ [] := by
      intro hempty
      have h0 : st.maxConf = 0 := (h2 hempty).1
      rw [h0] at hle
      exact absurd (lt_of_lt_of_le hpos hle) (lt_irrefl 0)
    obtain ⟨f0, hf0mem, hf0c, hf0l⟩ := h4 hne
    refine ⟨by simp [weaponUpd], by simp [weaponUpd], ?_, ?_⟩
    · intro f hf
      simp only [weaponUpd] at hf ⊢
      rw [if_neg hlt]
      rcases List.mem_append.mp hf with hf' | hf'
      · exact h3 f hf'
      · have hfd : f = mkFinding d := by simpa using hf'
        simpa [hfd, mkFinding] using hle
    · intro _
      refine ⟨f0, ?_, ?_, ?_⟩
      · simp only [weaponUpd]
        exact List.mem_append_left _ hf0mem
      · simp only [weaponUpd]
        rw [if_neg hlt]
        exact hf0c
      · simp only [weaponUpd]
        rw [if_neg hlt]
        exact hf0l

/-- The whole fold preserves the invariant for any positive gate. -/
theorem winv_fold (pass : RawDetection → Bool)
    (hpos : ∀ d, pass d = true → 0 < d.conf) (dets : List RawDetection) :
    ∀ st, WInv st → WInv (weaponFoldOn pass dets st) := by
  induction dets with
  | nil => intro st h; simpa [weaponFoldOn] using h
  | cons d rest ih =>
    intro st h
    by_cases hp : pass d = true
    · have := ih (weaponUpd st d) (winv_upd st d (hpos d hp) h)
      simpa [weaponFoldOn, hp] using this
    · have hp' : pass d = false := by simpa using hp
      simpa [weaponFoldOn, hp'] using ih st h

/-- The collected boxes are exactly the gated detections, in order. -/
theorem wfold_boxes (pass : RawDetection → Bool) (dets : List RawDetection) :
    ∀ st, (weaponFoldOn pass dets st).boxes =
      st.boxes ++ (dets.filter pass).map mkFinding := by
  induction dets with
  | nil => intro st; simp [weaponFoldOn]
  | cons d rest ih =>
    intro st
    by_cases hp : pass d = true
    · simp [weaponFoldOn, hp, ih, weaponUpd, List.append_assoc]
    · have hp' : pass d = false := by simpa using hp
      simp [weaponFoldOn, hp', ih]

/-- A request with a decoded frame and a healthy log sink always succeeds,
returning the pure aggregation and appending the full log. -/
theorem detect_none_eq (m : Models) (frame : Frame) :
    detect m none (some frame) = (Response.ok (aggResult m frame), fullLog m frame) := by
  obtain ⟨w, p, b, ocr⟩ := m
  cases w with
  | none =>
    cases p with
    | none =>
      cases b with
      | none =>
        simp [detect, aggResult, fullLog, weaponDets, plateDets, behavDets,
              plateRows, weaponFoldOn, plateGo]
      | some bdets =>
        simp [detect, aggResult, fullLog, weaponDets, plateDets, behavDets,
              plateRows, weaponFoldOn, plateGo, behavLoop_none_eq]
    | some pdets =>
      cases hgo : plateGo ocr frame pdets none with
      | none =>
        cases b with
        | none =>
          simp [detect, aggResult, fullLog, weaponDets, plateDets, behavDets,
                plateRows, weaponFoldOn, hgo]
        | some bdets =>
          simp [detect, aggResult, fullLog, weaponDets, plateDets, behavDets,
                plateRows, weaponFoldOn, hgo, behavLoop_none_eq]
      | some bb =>
        cases b with
        | none =>
          simp [detect, aggResult, fullLog, weaponDets, plateDets, behavDets,
                plateRows, weaponFoldOn, hgo, payloadOf]
        | some bdets =>
          simp [detect, aggResult, fullLog, weaponDets, plateDets, behavDets,
                plateRows, weaponFoldOn, hgo, payloadOf, behavLoop_none_eq]
  | some wdets =>
    cases p with
    | none =>
      cases b with
      | none =>
        simp [detect, aggResult, fullLog, weaponDets, plateDets, behavDets,
              plateRows, weaponFoldOn, plateGo, weaponLoop_none_eq]
      | some bdets =>
        simp [detect, aggResult, fullLog, weaponDets, plateDets, behavDets,
              plateRows, weaponFoldOn, plateGo, weaponLoop_none_eq, behavLoop_none_eq]
    | some pdets =>
      cases hgo : plateGo ocr frame pdets none with
      | none =>
        cases b with
        | none =>
          simp [detect, aggResult, fullLog, weaponDets, plateDets, behavDets,
                plateRows, hgo, weaponLoop_none_eq]
        | some bdets =>
          simp [detect, aggResult, fullLog, weaponDets, plateDets, behavDets,
                plateRows, hgo, weaponLoop_none_eq, behavLoop_none_eq]
      | some bb =>
        cases b with
        | none =>
          simp [detect, aggResult, fullLog, weaponDets, plateDets, behavDets,
                plateRows, hgo, payloadOf, weaponLoop_none_eq]
        | some bdets =>
          simp [detect, aggResult, fullLog, weaponDets, plateDets, behavDets,
                plateRows, hgo, payloadOf, weaponLoop_none_eq, behavLoop_none_eq,
                List.append_assoc]

/-- With a failing log sink a decoded request raises at the first row to be
written — yielding a server error and an empty log — and returns the empty
result when nothing qualifies. -/
theorem detect_some_eq (m : Models) (e : String) (frame : Frame) :
    detect m (some e) (some frame) =
      if ((weaponDets m).any passW || (plateGo m.ocr frame (plateDets m) none).isSome
          || (behavDets m).any passB) then
        (Response.serverErr e, [])
      else
        (Response.ok emptyResult, []) := by
  obtain ⟨w, p, b, ocr⟩ := m
  cases w with
  | none =>
    cases p with
    | none =>
      cases b with
      | none =>
        simp [detect, weaponDets, plateDets, behavDets, plateGo, behavLoop,
              emptyResult, wInit]
      | some bdets =>
        by_cases hb : bdets.any passB <;>
          simp [detect, weaponDets, plateDets, behavDets, plateGo,
                behavLoop_some_eq, hb, emptyResult, wInit]
    | some pdets =>
      cases hgo : plateGo ocr frame pdets none with
      | none =>
        cases b with
        | none =>
          simp [detect, weaponDets, plateDets, behavDets, hgo, behavLoop,
                emptyResult, wInit]
        | some bdets =>
          by_cases hb : bdets.any passB <;>
            simp [detect, weaponDets, plateDets, behavDets, hgo,
                  behavLoop_some_eq, hb, emptyResult, wInit]
      | some bb =>
        cases b with
        | none =>
          simp [detect, weaponDets, plateDets, behavDets, hgo, emptyResult, wInit]
        | some bdets =>
          simp [detect, weaponDets, plateDets, behavDets, hgo, emptyResult, wInit]
  | some wdets =>
    by_cases hw : wdets.any passW
    · simp [detect, weaponDets, plateDets, behavDets, weaponLoop_some_eq, hw]
    · cases p with
      | none =>
        cases b with
        | none =>
          simp [detect, weaponDets, plateDets, behavDets, weaponLoop_some_eq, hw,
                plateGo, behavLoop, emptyResult, wInit]
        | some bdets =>
          by_cases hb : bdets.any passB <;>
            simp [detect, weaponDets, plateDets, behavDets, weaponLoop_some_eq, hw,
                  plateGo, behavLoop_some_eq, hb, emptyResult, wInit]
      | some pdets =>
        cases hgo : plateGo ocr frame pdets none with
        | none =>
          cases b with
          | none =>
            simp [detect, weaponDets, plateDets, behavDets, weaponLoop_some_eq, hw,
                  hgo, behavLoop, emptyResult, wInit]
          | some bdets =>
            by_cases hb : bdets.any passB <;>
              simp [detect, weaponDets, plateDets, behavDets, weaponLoop_some_eq, hw,
                    hgo, behavLoop_some_eq, hb, emptyResult, wInit]
        | some bb =>
          cases b with
          | none =>
            simp [detect, weaponDets, plateDets, behavDets, weaponLoop_some_eq, hw, hgo]
          | some bdets =>
            simp [detect, weaponDets, plateDets, behavDets, weaponLoop_some_eq, hw, hgo]

/-- A retained plate candidate comes from a gated detection of maximal
confidence. -/
theorem plateGo_some_bound (ocr : Option OcrReader) (frame : Frame)
    (dets : List RawDetection) (b : PlateBest)
    (h : plateGo ocr frame dets none = some b) :
    ∃ d ∈ dets.filter passP, b = mkBest ocr frame d ∧
      ∀ x ∈ dets.filter passP, x.conf ≤ d.conf := by
  rw [plateGo_eq_pickGo] at h
  cases hq : dets.filter passP with
  | nil => rw [hq] at h; simp [pickGo] at h
  | cons q qs =>
    rw [hq, pickGo_cons] at h
    have hb : b = mkBest ocr frame (argFirstMax q qs) := by
      simpa using h.symm
    refine ⟨argFirstMax q qs, ?_, hb, ?_⟩
    · exact argFirstMax_mem qs q
    · intro x hx
      exact argFirstMax_le qs q x hx

/-- Claim C1: in every successful response, `detected` is true iff the
weapons list is non-empty; `confidence` is the maximum confidence among the
weapon findings, or 0 when there are none; `weaponType` is the label of a
maximum-confidence weapon finding, or "unknown" when there are none — for
both the all-models detect (test.py) and main.py's detect. -/
theorem c1_weapon_aggregation :
    (∀ (m : Models) (decoded : Option Frame) (res : AggregatedResult) (log : List Row),
        detect m none decoded = (Response.ok res, log) →
        ((res.detected = true ↔ res.boundingBoxes ≠ []) ∧
         (res.boundingBoxes = [] → res.confidence = 0 ∧ res.weaponType = "unknown") ∧
         (∀ f ∈ res.boundingBoxes, f.confidence ≤ res.confidence) ∧
         (res.boundingBoxes ≠ [] →
           ∃ f ∈ res.boundingBoxes, f.confidence = res.confidence ∧
             f.label = res.weaponType))) ∧
    (∀ (model : List RawDetection) (bytesEmpty : Bool) (decoded : Option Frame)
        (r : MainResult),
        mainDetect model bytesEmpty decoded = MainResponse.ok r →
        ((r.detected = true ↔ r.boundingBoxes ≠ []) ∧
         (r.boundingBoxes = [] → r.confidence = 0 ∧ r.weaponType = "unknown") ∧
         (∀ f ∈ r.boundingBoxes, f.confidence ≤ r.confidence) ∧
         (r.boundingBoxes ≠ [] →
           ∃ f ∈ r.boundingBoxes, f.confidence = r.confidence ∧
             f.label = r.weaponType))) := by
  constructor
  · intro m decoded res log h
    cases decoded with
    | none => simp [detect] at h
    | some frame =>
      rw [detect_none_eq] at h
      have hres : aggResult m frame = res := by
        have h1 := congrArg Prod.fst h
        simpa using h1
      rw [← hres]
      have hinv := winv_fold passW passW_pos (weaponDets m) wInit winv_init
      obtain ⟨i1, i2, i3, i4⟩ := hinv
      exact ⟨i1, i2, i3, i4⟩
  · intro model bytesEmpty decoded r h
    cases bytesEmpty with
    | true => simp [mainDetect] at h
    | false =>
      cases decoded with
      | none => simp [mainDetect] at h
      | some frame =>
        simp only [mainDetect, Bool.false_eq_true, if_false] at h
        injection h with hr
        rw [← hr]
        have hinv := winv_fold passMain passMain_pos model wInit winv_init
        obtain ⟨i1, i2, i3, i4⟩ := hinv
        exact ⟨i1, i2, i3, i4⟩

/-- Witness for C1 at a concrete request with one passing weapon detection,
for both endpoints. -/
theorem c1_weapon_aggregation_witness :
    detect mC1 none (some frame0) = (Response.ok resC1, logC1) ∧
    ((resC1.detected = true ↔ resC1.boundingBoxes ≠ []) ∧
     (resC1.boundingBoxes = [] → resC1.confidence = 0 ∧ resC1.weaponType = "unknown") ∧
     (∀ f ∈ resC1.boundingBoxes, f.confidence ≤ resC1.confidence) ∧
     (resC1.boundingBoxes ≠ [] →
       ∃ f ∈ resC1.boundingBoxes, f.confidence = resC1.confidence ∧
         f.label = resC1.weaponType)) ∧
    mainDetect [dKnife] false (some frame0) = MainResponse.ok resM1 ∧
    ((resM1.detected = true ↔ resM1.boundingBoxes ≠ []) ∧
     (resM1.boundingBoxes = [] → resM1.confidence = 0 ∧ resM1.weaponType = "unknown") ∧
     (∀ f ∈ resM1.boundingBoxes, f.confidence ≤ resM1.confidence) ∧
     (resM1.boundingBoxes ≠ [] →
       ∃ f ∈ resM1.boundingBoxes, f.confidence = resM1.confidence ∧
         f.label = resM1.weaponType)) := by
  have hdet : detect mC1 none (some frame0) = (Response.ok resC1, logC1) := by decide
  have hmain : mainDetect [dKnife] false (some frame0) = MainResponse.ok resM1 := by decide
  exact ⟨hdet, c1_weapon_aggregation.1 mC1 (some frame0) resC1 logC1 hdet,
         hmain, c1_weapon_aggregation.2 [dKnife] false (some frame0) resM1 hmain⟩

/-- Claim C2: the plate field holds at most one finding; it is empty iff no
plate detection passes the threshold, and otherwise it is built from a
gated detection of maximal confidence such that every gated detection
strictly before it has strictly smaller confidence (first-seen wins ties). -/
theorem c2_plate_best_candidate :
    ∀ (m : Models) (frame : Frame) (res : AggregatedResult) (log : List Row),
      detect m none (some frame) = (Response.ok res, log) →
      ((res.plate = none ↔ (plateDets m).filter passP = []) ∧
       (∀ p, res.plate = some p →
         ∃ l1 d l2, (plateDets m).filter passP = l1 ++ d :: l2 ∧
           p.confidence = d.conf ∧ p.box = truncBox d.box ∧
           p.text = plateText m.ocr frame (truncBox d.box) ∧
           (∀ x ∈ (plateDets m).filter passP, x.conf ≤ d.conf) ∧
           (∀ x ∈ l1, x.conf < d.conf))) := by
  intro m frame res log h
  rw [detect_none_eq] at h
  have hres : aggResult m frame = res := by
    have h1 := congrArg Prod.fst h
    simpa using h1
  rw [← hres]
  cases hq : (plateDets m).filter passP with
  | nil =>
    have hgo : plateGo m.ocr frame (plateDets m) none = none := by
      rw [plateGo_eq_pickGo, hq]; rfl
    constructor
    · simp [aggResult, hgo]
    · intro p hp
      simp [aggResult, hgo] at hp
  | cons q qs =>
    have hgo : plateGo m.ocr frame (plateDets m) none =
        some (mkBest m.ocr frame (argFirstMax q qs)) := by
      rw [plateGo_eq_pickGo, hq, pickGo_cons]
    constructor
    · simp [aggResult, hgo]
    · intro p hp
      have hp' : p = payloadOf (mkBest m.ocr frame (argFirstMax q qs)) := by
        rw [show (aggResult m frame).plate =
            (plateGo m.ocr frame (plateDets m) none).map payloadOf from rfl, hgo] at hp
        simpa using hp.symm
      obtain ⟨l1, l2, heq, hlt⟩ := argFirstMax_split qs q
      refine ⟨l1, argFirstMax q qs, l2, ?_, ?_, ?_, ?_, ?_, hlt⟩
      · exact heq
      · simp [hp', payloadOf, mkBest]
      · simp [hp', payloadOf, mkBest]
      · simp [hp', payloadOf, mkBest]
      · intro x hx
        exact argFirstMax_le qs q x hx

/-- Witness for C2 at a request with two passing plate detections of
confidences 0.72 and 0.91. -/
theorem c2_plate_best_candidate_witness :
    detect mTwoPlates none (some frame0) = (Response.ok resC2, logC2) ∧
    resC2.plate = some pC2 ∧
    (∃ l1 d l2, (plateDets mTwoPlates).filter passP = l1 ++ d :: l2 ∧
      pC2.confidence = d.conf ∧ pC2.box = truncBox d.box ∧
      pC2.text = plateText mTwoPlates.ocr frame0 (truncBox d.box) ∧
      (∀ x ∈ (plateDets mTwoPlates).filter passP, x.conf ≤ d.conf) ∧
      (∀ x ∈ l1, x.conf < d.conf)) := by
  have hdet : detect mTwoPlates none (some frame0) = (Response.ok resC2, logC2) := by
    decide
  have hp : resC2.plate = some pC2 := by decide
  exact ⟨hdet, hp,
    (c2_plate_best_candidate mTwoPlates frame0 resC2 logC2 hdet).2 pC2 hp⟩

/-- Claim C3: detections below their category threshold contribute nothing:
every finding in a response and every row in the incident log has
confidence at or above its category threshold, for any request and any
log-sink behaviour. -/
theorem c3_threshold_gating :
    ∀ (m : Models) (logErr : Option String) (decoded : Option Frame)
      (resp : Response) (log : List Row),
      detect m logErr decoded = (resp, log) →
      ((∀ res, resp = Response.ok res →
          (∀ f ∈ res.boundingBoxes, WEAPON_CONF ≤ f.confidence) ∧
          (∀ p, res.plate = some p → PLATE_CONF ≤ p.confidence) ∧
          (∀ s ∈ res.suspicious, BEHAV_CONF ≤ s.confidence)) ∧
       (∀ r ∈ log,
          (r.category = "WEAPON" → WEAPON_CONF ≤ r.conf) ∧
          (r.category = "PLATE" → PLATE_CONF ≤ r.conf) ∧
          (r.category = "BEHAVIOUR" → BEHAV_CONF ≤ r.conf))) := by
  intro m logErr decoded resp log h
  cases decoded with
  | none =>
    rw [show detect m logErr none = (Response.serverErr shapeErrMsg, []) from rfl,
        Prod.mk.injEq] at h
    obtain ⟨h1, h2⟩ := h
    subst h1
    subst h2
    constructor
    · intro res hres
      exact absurd hres (by simp)
    · intro r hr
      simp at hr
  | some frame =>
    cases logErr with
    | none =>
      rw [detect_none_eq, Prod.mk.injEq] at h
      obtain ⟨h1, h2⟩ := h
      subst h1
      subst h2
      constructor
      · intro res hres
        have hres' : aggResult m frame = res := by simpa using hres
        rw [← hres']
        refine ⟨?_, ?_, ?_⟩
        · intro f hf
          have hb : (aggResult m frame).boundingBoxes =
              ((weaponDets m).filter passW).map mkFinding := by
            simp [aggResult, wfold_boxes, wInit]
          rw [hb] at hf
          obtain ⟨d, hd, hfd⟩ := List.mem_map.mp hf
          have hle := (passW_iff d).mp (List.mem_filter.mp hd).2
          rw [← hfd]
          simpa [mkFinding] using hle
        · intro p hp
          rw [show (aggResult m frame).plate =
              (plateGo m.ocr frame (plateDets m) none).map payloadOf from rfl] at hp
          obtain ⟨b, hb, hpb⟩ := Option.map_eq_some'.mp hp
          obtain ⟨d, hd, hbd, _⟩ := plateGo_some_bound m.ocr frame (plateDets m) b hb
          have hle := (passP_iff d).mp (List.mem_filter.mp hd).2
          rw [← hpb, hbd]
          simpa [payloadOf, mkBest] using hle
        · intro s hs
          rw [show (aggResult m frame).suspicious =
              ((behavDets m).filter passB).map mkBehaviour from rfl] at hs
          obtain ⟨d, hd, hsd⟩ := List.mem_map.mp hs
          have hle := ((passB_iff d).mp (List.mem_filter.mp hd).2).1
          rw [← hsd]
          simpa [mkBehaviour] using hle
      · intro r hr
        simp only [fullLog, List.mem_append] at hr
        rcases hr with (hr | hr) | hr
        · obtain ⟨d, hd, hrd⟩ := List.mem_map.mp hr
          have hle := (passW_iff d).mp (List.mem_filter.mp hd).2
          refine ⟨?_, ?_, ?_⟩
          · intro _
            rw [← hrd]
            simpa [weaponRow] using hle
          · intro hcat
            rw [← hrd] at hcat
            exact absurd (show "WEAPON" = "PLATE" from hcat) (by decide)
          · intro hcat
            rw [← hrd] at hcat
            exact absurd (show "WEAPON" = "BEHAVIOUR" from hcat) (by decide)
        · cases hgo : plateGo m.ocr frame (plateDets m) none with
          | none =>
            rw [hgo] at hr
            simp [plateRows] at hr
          | some b =>
            rw [hgo] at hr
            have hrb : r = plateRowB b := by simpa [plateRows] using hr
            obtain ⟨d, hd, hbd, _⟩ := plateGo_some_bound m.ocr frame (plateDets m) b hgo
            have hle := (passP_iff d).mp (List.mem_filter.mp hd).2
            refine ⟨?_, ?_, ?_⟩
            · intro hcat
              rw [hrb] at hcat
              exact absurd (show "PLATE" = "WEAPON" from hcat) (by decide)
            · intro _
              rw [hrb, hbd]
              simpa [plateRowB, mkBest] using hle
            · intro hcat
              rw [hrb] at hcat
              exact absurd (show "PLATE" = "BEHAVIOUR" from hcat) (by decide)
        · obtain ⟨d, hd, hrd⟩ := List.mem_map.mp hr
          have hle := ((passB_iff d).mp (List.mem_filter.mp hd).2).1
          refine ⟨?_, ?_, ?_⟩
          · intro hcat
            rw [← hrd] at hcat
            exact absurd (show "BEHAVIOUR" = "WEAPON" from hcat) (by decide)
          · intro hcat
            rw [← hrd] at hcat
            exact absurd (show "BEHAVIOUR" = "PLATE" from hcat) (by decide)
          · intro _
            rw [← hrd]
            simpa [behaviourRow] using hle
    | some e =>
      rw [detect_some_eq] at h
      by_cases hcond : ((weaponDets m).any passW
          || (plateGo m.ocr frame (plateDets m) none).isSome
          || (behavDets m).any passB) = true
      · rw [if_pos hcond, Prod.mk.injEq] at h
        obtain ⟨h1, h2⟩ := h
        subst h1
        subst h2
        constructor
        · intro res hres
          exact absurd hres (by simp)
        · intro r hr
          simp at hr
      · rw [if_neg hcond, Prod.mk.injEq] at h
        obtain ⟨h1, h2⟩ := h
        subst h1
        subst h2
        constructor
        · intro res hres
          have hres' : emptyResult = res := by simpa using hres
          rw [← hres']
          refine ⟨?_, ?_, ?_⟩ <;> simp [emptyResult]
        · intro r hr
          simp at hr

/-- Witness for C3 at a request with one passing finding per category. -/
theorem c3_threshold_gating_witness :
    detect mC10 none (some frame0) = (Response.ok resC10, logC10) ∧
    WEAPON_CONF ≤ Rat.divInt 19 20 ∧
    PLATE_CONF ≤ Rat.divInt 91 100 ∧
    BEHAV_CONF ≤ Rat.divInt 9 10 := by
  have hdet : detect mC10 none (some frame0) = (Response.ok resC10, logC10) := by decide
  have hc := c3_threshold_gating mC10 none (some frame0) (Response.ok resC10) logC10 hdet
  refine ⟨hdet, ?_, ?_, ?_⟩
  · exact (hc.1 resC10 rfl).1 ⟨"knife", Rat.divInt 19 20, [10, 20, 30, 40]⟩ (by decide)
  · exact (hc.1 resC10 rfl).2.1 pC2 (by decide)
  · exact (hc.1 resC10 rfl).2.2 ⟨"fight", Rat.divInt 9 10, [10, 20, 30, 40]⟩ (by decide)

/-- Claim C4: a behaviour detection whose case-normalized label is "normal"
never appears in the `suspicious` list nor in the incident log, regardless
of its confidence; the exclusion is case-insensitive. -/
theorem c4_normal_label_excluded :
    ∀ (m : Models) (frame : Frame) (res : AggregatedResult) (log : List Row),
      detect m none (some frame) = (Response.ok res, log) →
      ((∀ s ∈ res.suspicious, s.label ≠ "normal") ∧
       (∀ r ∈ log, r.category = "BEHAVIOUR" → r.label ≠ "normal") ∧
       (∀ d : RawDetection, pyLower d.label = "normal" →
          mkBehaviour d ∉ res.suspicious ∧ behaviourRow d ∉ log)) := by
  intro m frame res log h
  rw [detect_none_eq, Prod.mk.injEq] at h
  obtain ⟨h1, h2⟩ := h
  have hres : aggResult m frame = res := by simpa using h1
  subst h2
  rw [← hres]
  have hsusp : ∀ s ∈ (aggResult m frame).suspicious, s.label ≠ "normal" := by
    intro s hs
    rw [show (aggResult m frame).suspicious =
        ((behavDets m).filter passB).map mkBehaviour from rfl] at hs
    obtain ⟨d, hd, hsd⟩ := List.mem_map.mp hs
    have hne := ((passB_iff d).mp (List.mem_filter.mp hd).2).2
    rw [← hsd]
    simpa [mkBehaviour] using hne
  have hlog : ∀ r ∈ fullLog m frame, r.category = "BEHAVIOUR" → r.label ≠ "normal" := by
    intro r hr hcat
    simp only [fullLog, List.mem_append] at hr
    rcases hr with (hr | hr) | hr
    · obtain ⟨d, hd, hrd⟩ := List.mem_map.mp hr
      rw [← hrd] at hcat
      exact absurd (show "WEAPON" = "BEHAVIOUR" from hcat) (by decide)
    · cases hgo : plateGo m.ocr frame (plateDets m) none with
      | none =>
        rw [hgo] at hr
        simp [plateRows] at hr
      | some b =>
        rw [hgo] at hr
        have hrb : r = plateRowB b := by simpa [plateRows] using hr
        rw [hrb] at hcat
        exact absurd (show "PLATE" = "BEHAVIOUR" from hcat) (by decide)
    · obtain ⟨d, hd, hrd⟩ := List.mem_map.mp hr
      have hne := ((passB_iff d).mp (List.mem_filter.mp hd).2).2
      rw [← hrd]
      simpa [behaviourRow] using hne
  refine ⟨hsusp, hlog, ?_⟩
  intro d hd
  constructor
  · intro hmem
    exact hsusp (mkBehaviour d) hmem (by simpa [mkBehaviour] using hd)
  · intro hmem
    exact hlog (behaviourRow d) hmem rfl (by simpa [behaviourRow] using hd)

/-- Witness for C4: a "Normal" behaviour detection at confidence 0.99 is
excluded from the response and the log. -/
theorem c4_normal_label_excluded_witness :
    detect mC4 none (some frame0) = (Response.ok emptyResult, []) ∧
    pyLower dNormal.label = "normal" ∧
    mkBehaviour dNormal ∉ emptyResult.suspicious ∧
    behaviourRow dNormal ∉ ([] : List Row) := by
  have hdet : detect mC4 none (some frame0) = (Response.ok emptyResult, []) := by decide
  have hn : pyLower dNormal.label = "normal" := by decide
  have hpair := (c4_normal_label_excluded mC4 frame0 emptyResult [] hdet).2.2 dNormal hn
  exact ⟨hdet, hn, hpair.1, hpair.2⟩

/-- The plate row of a payload is the plate row of the retained candidate. -/
theorem plateRowOf_payloadOf (b : PlateBest) : plateRowOf (payloadOf b) = plateRowB b := rfl

/-- Weapon rows never carry the PLATE category. -/
theorem filter_plate_weaponRows (dets : List RawDetection) :
    ((dets.map weaponRow).filter fun r => r.category == "PLATE") = [] := by
  have hb : ((("WEAPON" : String) == "PLATE")) = false := by decide
  induction dets with
  | nil => rfl
  | cons d rest ih => simp [weaponRow, hb, ih]

/-- Behaviour rows never carry the PLATE category. -/
theorem filter_plate_behavRows (dets : List RawDetection) :
    ((dets.map behaviourRow).filter fun r => r.category == "PLATE") = [] := by
  have hb : ((("BEHAVIOUR" : String) == "PLATE")) = false := by decide
  induction dets with
  | nil => rfl
  | cons d rest ih => simp [behaviourRow, hb, ih]

/-- Plate rows all carry the PLATE category. -/
theorem filter_plate_plateRows (o : Option PlateBest) :
    ((plateRows o).filter fun r => r.category == "PLATE") = plateRows o := by
  have hb : ((("PLATE" : String) == "PLATE")) = true := by decide
  cases o with
  | none => rfl
  | some b => simp [plateRows, plateRowB, hb]

/-- The PLATE rows of a request's log are exactly the 0-or-1 retained
plate rows. -/
theorem log_plate_filter (m : Models) (frame : Frame) :
    ((fullLog m frame).filter fun r => r.category == "PLATE") =
      plateRows (plateGo m.ocr frame (plateDets m) none) := by
  simp [fullLog, List.filter_append, filter_plate_weaponRows,
        filter_plate_behavRows, filter_plate_plateRows]

/-- Counterexample to claim C5 as stated: on undecodable input (including
empty bytes) the all-models detect returns a server error (500 through the
generic handler), not a client-error outcome. -/
theorem c5_counterexample :
    (detect mAllNone none none).1.isClientErr = false ∧
    detect mAllNone none none = (Response.serverErr shapeErrMsg, []) :=
  ⟨by decide, by decide⟩

/-- Claim C5 amended: on empty or undecodable image bytes, both detect
operations return an error with a message and append no incident row;
main.py answers with a 400 client error, while the all-models detect lets
the decode failure reach the generic handler and answers with a 500 server
error. -/
theorem c5_amended_decode_failure :
    ∀ (m : Models) (logErr : Option String) (model : List RawDetection)
      (d : Option Frame),
      detect m logErr none = (Response.serverErr shapeErrMsg, []) ∧
      (detect m logErr none).2 = [] ∧
      mainDetect model true d = MainResponse.clientErr "No image data received" ∧
      mainDetect model false none = MainResponse.clientErr "Failed to decode image" := by
  intro m logErr model d
  exact ⟨rfl, rfl, rfl, rfl⟩

/-- Counterexample to claim C6 as stated: two plate detections pass the
threshold but only one PLATE row (the retained best) is appended. -/
theorem c6_counterexample :
    ((plateDets mTwoPlates).filter passP).length = 2 ∧
    (detect mTwoPlates none (some frame0)).2.length = 1 ∧
    (detect mTwoPlates none (some frame0)).2 = logC2 :=
  ⟨by decide, by decide, by decide⟩

/-- Claim C6 amended: a successful request logs exactly one row per weapon
detection passing threshold and one per non-"normal" behaviour detection
passing threshold, in discovery order, and exactly one PLATE row — for the
single retained best candidate — whenever at least one plate detection
passes; non-best passing plate detections are not logged. -/
theorem c6_amended_exact_log :
    ∀ (m : Models) (frame : Frame) (res : AggregatedResult) (log : List Row),
      detect m none (some frame) = (Response.ok res, log) →
      (log = ((weaponDets m).filter passW).map weaponRow
           ++ plateRows (plateGo m.ocr frame (plateDets m) none)
           ++ ((behavDets m).filter passB).map behaviourRow ∧
       (res.plate = none → (log.filter fun r => r.category == "PLATE") = []) ∧
       (∀ p, res.plate = some p →
          (log.filter fun r => r.category == "PLATE") = [plateRowOf p])) := by
  intro m frame res log h
  rw [detect_none_eq, Prod.mk.injEq] at h
  obtain ⟨h1, h2⟩ := h
  have hres : aggResult m frame = res := by simpa using h1
  subst h2
  refine ⟨rfl, ?_, ?_⟩
  · intro hpn
    rw [← hres] at hpn
    rw [show (aggResult m frame).plate =
        (plateGo m.ocr frame (plateDets m) none).map payloadOf from rfl] at hpn
    have hgo : plateGo m.ocr frame (plateDets m) none = none :=
      Option.map_eq_none'.mp hpn
    rw [log_plate_filter, hgo]
    rfl
  · intro p hp
    rw [← hres] at hp
    rw [show (aggResult m frame).plate =
        (plateGo m.ocr frame (plateDets m) none).map payloadOf from rfl] at hp
    obtain ⟨b, hgo, hpb⟩ := Option.map_eq_some'.mp hp
    rw [log_plate_filter, hgo, ← hpb, plateRowOf_payloadOf]
    rfl

/-- Witness for the amended C6 at a request with two passing plate
detections. -/
theorem c6_amended_exact_log_witness :
    detect mTwoPlates none (some frame0) = (Response.ok resC2, logC2) ∧
    logC2 = ((weaponDets mTwoPlates).filter passW).map weaponRow
         ++ plateRows (plateGo mTwoPlates.ocr frame0 (plateDets mTwoPlates) none)
         ++ ((behavDets mTwoPlates).filter passB).map behaviourRow ∧
    (logC2.filter fun r => r.category == "PLATE") = [plateRowOf pC2] := by
  have hdet : detect mTwoPlates none (some frame0) = (Response.ok resC2, logC2) := by
    decide
  have hc := c6_amended_exact_log mTwoPlates frame0 resC2 logC2 hdet
  exact ⟨hdet, hc.1, hc.2.2 pC2 (by decide)⟩

/-- Claim C7: the plate text of a passing detection is the sentinel
"DETECTED" when the extractor is absent, the crop is empty, extraction
raises, or extraction returns no items; otherwise it is the first item's
text. An extraction failure never fails the request, and every returned
plate payload's text is exactly the extraction of its own crop box. -/
theorem c7_extraction_fallback :
    ∀ (reader : OcrReader) (frame : Frame) (b : IBox) (item : OcrItem)
      (items : List OcrItem) (m : Models),
      (plateText none frame b = "DETECTED") ∧
      (cropSize frame b = 0 → plateText (some reader) frame b = "DETECTED") ∧
      (reader frame b = OcrOutcome.raises →
          plateText (some reader) frame b = "DETECTED") ∧
      (reader frame b = OcrOutcome.returns [] →
          plateText (some reader) frame b = "DETECTED") ∧
      (0 < cropSize frame b → reader frame b = OcrOutcome.returns (item :: items) →
          plateText (some reader) frame b = item.text) ∧
      ((detect m none (some frame)).1.isOk = true) ∧
      (∀ res log p, detect m none (some frame) = (Response.ok res, log) →
          res.plate = some p →
          ∃ d ∈ (plateDets m).filter passP,
            p.text = plateText m.ocr frame (truncBox d.box) ∧
            p.box = truncBox d.box) := by
  intro reader frame b item items m
  refine ⟨rfl, ?_, ?_, ?_, ?_, ?_, ?_⟩
  · intro h0
    simp [plateText, h0]
  · intro hr
    by_cases hc : 0 < cropSize frame b
    · simp [plateText, hc, hr]
    · simp [plateText, hc]
  · intro hr
    by_cases hc : 0 < cropSize frame b
    · simp [plateText, hc, hr]
    · simp [plateText, hc]
  · intro hc hr
    simp [plateText, hc, hr]
  · rw [detect_none_eq]
    rfl
  · intro res log p hdet hp
    rw [detect_none_eq, Prod.mk.injEq] at hdet
    obtain ⟨h1, h2⟩ := hdet
    have hres : aggResult m frame = res := by simpa using h1
    rw [← hres] at hp
    rw [show (aggResult m frame).plate =
        (plateGo m.ocr frame (plateDets m) none).map payloadOf from rfl] at hp
    obtain ⟨bb, hbb, hpb⟩ := Option.map_eq_some'.mp hp
    obtain ⟨dd, hdd, hbd, _⟩ := plateGo_some_bound m.ocr frame (plateDets m) bb hbb
    refine ⟨dd, hdd, ?_, ?_⟩
    · rw [← hpb, hbd]; rfl
    · rw [← hpb, hbd]; rfl

/-- Witness for C7: the four fallback situations, a successful extraction,
and a concrete returned payload tied to its own crop box. -/
theorem c7_extraction_fallback_witness :
    plateText none frame0 ibox0 = "DETECTED" ∧
    (cropSize frame0 iboxEmpty = 0 ∧
      plateText (some readerKA) frame0 iboxEmpty = "DETECTED") ∧
    (readerRaises frame0 ibox0 = OcrOutcome.raises ∧
      plateText (some readerRaises) frame0 ibox0 = "DETECTED") ∧
    (readerEmpty frame0 ibox0 = OcrOutcome.returns [] ∧
      plateText (some readerEmpty) frame0 ibox0 = "DETECTED") ∧
    (0 < cropSize frame0 ibox0 ∧
      plateText (some readerKA) frame0 ibox0 = itemKA.text) ∧
    (detect mC1 none (some frame0)).1.isOk = true ∧
    (∃ d ∈ (plateDets mTwoPlates).filter passP,
      pC2.text = plateText mTwoPlates.ocr frame0 (truncBox d.box) ∧
      pC2.box = truncBox d.box) := by
  have hdet : detect mTwoPlates none (some frame0) = (Response.ok resC2, logC2) := by
    decide
  refine ⟨(c7_extraction_fallback readerKA frame0 ibox0 itemKA [] mC1).1,
    ⟨by decide, (c7_extraction_fallback readerKA frame0 iboxEmpty itemKA [] mC1).2.1
      (by decide)⟩,
    ⟨rfl, (c7_extraction_fallback readerRaises frame0 ibox0 itemKA [] mC1).2.2.1 rfl⟩,
    ⟨rfl, (c7_extraction_fallback readerEmpty frame0 ibox0 itemKA [] mC1).2.2.2.1 rfl⟩,
    ⟨by decide, (c7_extraction_fallback readerKA frame0 ibox0 itemKA [] mC1).2.2.2.2.1
      (by decide) rfl⟩,
    (c7_extraction_fallback readerKA frame0 ibox0 itemKA [] mC1).2.2.2.2.2.1,
    (c7_extraction_fallback readerKA frame0 ibox0 itemKA [] mTwoPlates).2.2.2.2.2.2
      resC2 logC2 pC2 hdet (by decide)⟩

/-- Claim C8: with every subset of detector slots disabled the request
still succeeds; a disabled slot contributes an empty field, and each
category's fields depend only on that category's own slot (plus, for the
plate, the OCR slot) — never on the other detectors. -/
theorem c8_detector_independence :
    ∀ (m mB : Models) (frame : Frame),
      (detect m none (some frame) =
        (Response.ok (aggResult m frame), fullLog m frame)) ∧
      (m.weapons = none →
        (aggResult m frame).boundingBoxes = [] ∧
        (aggResult m frame).detected = false ∧
        (aggResult m frame).confidence = 0 ∧
        (aggResult m frame).weaponType = "unknown") ∧
      (m.plate = none → (aggResult m frame).plate = none) ∧
      (m.behaviour = none → (aggResult m frame).suspicious = []) ∧
      (m.weapons = mB.weapons →
        (aggResult m frame).detected = (aggResult mB frame).detected ∧
        (aggResult m frame).confidence = (aggResult mB frame).confidence ∧
        (aggResult m frame).weaponType = (aggResult mB frame).weaponType ∧
        (aggResult m frame).boundingBoxes = (aggResult mB frame).boundingBoxes) ∧
      (m.plate = mB.plate → m.ocr = mB.ocr →
        (aggResult m frame).plate = (aggResult mB frame).plate) ∧
      (m.behaviour = mB.behaviour →
        (aggResult m frame).suspicious = (aggResult mB frame).suspicious) := by
  intro m mB frame
  refine ⟨detect_none_eq m frame, ?_, ?_, ?_, ?_, ?_, ?_⟩
  · intro hw
    refine ⟨?_, ?_, ?_, ?_⟩ <;>
      simp [aggResult, weaponDets, hw, weaponFoldOn, wInit]
  · intro hp
    simp [aggResult, plateDets, hp, plateGo]
  · intro hb
    simp [aggResult, behavDets, hb]
  · intro hw
    refine ⟨?_, ?_, ?_, ?_⟩ <;> simp [aggResult, weaponDets, hw]
  · intro hp hocr
    simp [aggResult, plateDets, hp, hocr]
  · intro hb
    simp [aggResult, behavDets, hb]

/-- Witness for C8 with every slot disabled: the request still succeeds and
every contribution is empty. -/
theorem c8_detector_independence_witness :
    detect mAllNone none (some frame0) =
      (Response.ok (aggResult mAllNone frame0), fullLog mAllNone frame0) ∧
    (aggResult mAllNone frame0).boundingBoxes = [] ∧
    (aggResult mAllNone frame0).detected = false ∧
    (aggResult mAllNone frame0).confidence = 0 ∧
    (aggResult mAllNone frame0).weaponType = "unknown" ∧
    (aggResult mAllNone frame0).plate = none ∧
    (aggResult mAllNone frame0).suspicious = [] ∧
    (aggResult mAllNone frame0).plate = (aggResult mAllNone frame0).plate := by
  have hc := c8_detector_independence mAllNone mAllNone frame0
  obtain ⟨he, hb1, hb2, hb3⟩ := hc.2.1 rfl
  exact ⟨hc.1, he, hb1, hb2, hb3, hc.2.2.1 rfl, hc.2.2.2.1 rfl,
    hc.2.2.2.2.2.1 rfl rfl⟩

/-- Counterexample to claim C9 as stated: with one passing weapon detection
and a raising log sink, the caller receives a 500 server error, not the
AggregatedResult. -/
theorem c9_counterexample :
    detect mC1 (some "disk full") (some frame0) =
      (Response.serverErr "disk full", []) ∧
    (detect mC1 (some "disk full") (some frame0)).1.isOk = false :=
  ⟨by decide, by decide⟩

/-- Claim C9 amended: a failure of the incident-log append aborts the
request — whenever any qualifying finding would be logged, the raising sink
makes the generic handler answer with a server error carrying the sink's
message, and no result is returned. -/
theorem c9_amended_log_failure_aborts :
    ∀ (m : Models) (e : String) (frame : Frame),
      ((weaponDets m).any passW = true ∨
       (plateGo m.ocr frame (plateDets m) none).isSome = true ∨
       (behavDets m).any passB = true) →
      detect m (some e) (some frame) = (Response.serverErr e, []) ∧
      (detect m (some e) (some frame)).1.isOk = false := by
  intro m e frame h
  have hcond : ((weaponDets m).any passW
      || (plateGo m.ocr frame (plateDets m) none).isSome
      || (behavDets m).any passB) = true := by
    rcases h with h | h | h <;> simp [h]
  have hd : detect m (some e) (some frame) = (Response.serverErr e, []) := by
    rw [detect_some_eq, if_pos hcond]
  exact ⟨hd, by rw [hd]; rfl⟩

/-- Witness for the amended C9 at a concrete request with one passing
weapon detection. -/
theorem c9_amended_log_failure_aborts_witness :
    detect mC1 (some "sink raised") (some frame0) =
      (Response.serverErr "sink raised", []) ∧
    (detect mC1 (some "sink raised") (some frame0)).1.isOk = false :=
  c9_amended_log_failure_aborts mC1 "sink raised" frame0 (Or.inl (by decide))

/-- Claim C10: the PLATE row of a request stores the extracted plate text
(or the sentinel) in the label column, while every WEAPON row stores the
detector's class label and every BEHAVIOUR row the case-normalized class
label. -/
theorem c10_row_label_content :
    ∀ (m : Models) (frame : Frame) (res : AggregatedResult) (log : List Row),
      detect m none (some frame) = (Response.ok res, log) →
      ((∀ p, res.plate = some p →
          plateRowOf p ∈ log ∧
          (log.filter fun r => r.category == "PLATE") = [plateRowOf p] ∧
          plateRowOf p = { category := "PLATE", label := p.text,
                           conf := p.confidence, box := p.box.toRatList }) ∧
       (∀ r ∈ log, r.category = "WEAPON" →
          ∃ d ∈ weaponDets m, r = weaponRow d ∧ r.label = d.label) ∧
       (∀ r ∈ log, r.category = "BEHAVIOUR" →
          ∃ d ∈ behavDets m, r = behaviourRow d ∧ r.label = pyLower d.label)) := by
  intro m frame res log h
  rw [detect_none_eq, Prod.mk.injEq] at h
  obtain ⟨h1, h2⟩ := h
  have hres : aggResult m frame = res := by simpa using h1
  subst h2
  refine ⟨?_, ?_, ?_⟩
  · intro p hp
    rw [← hres] at hp
    rw [show (aggResult m frame).plate =
        (plateGo m.ocr frame (plateDets m) none).map payloadOf from rfl] at hp
    obtain ⟨b, hgo, hpb⟩ := Option.map_eq_some'.mp hp
    refine ⟨?_, ?_, rfl⟩
    · rw [← hpb, plateRowOf_payloadOf]
      simp only [fullLog, hgo, plateRows]
      exact List.mem_append_left _ (List.mem_append_right _ (List.mem_singleton.mpr rfl))
    · rw [log_plate_filter, hgo, ← hpb, plateRowOf_payloadOf]
      rfl
  · intro r hr hcat
    simp only [fullLog, List.mem_append] at hr
    rcases hr with (hr | hr) | hr
    · obtain ⟨d, hd, hrd⟩ := List.mem_map.mp hr
      exact ⟨d, (List.mem_filter.mp hd).1, hrd.symm, by rw [← hrd]; rfl⟩
    · cases hgo : plateGo m.ocr frame (plateDets m) none with
      | none =>
        rw [hgo] at hr
        simp [plateRows] at hr
      | some b =>
        rw [hgo] at hr
        have hrb : r = plateRowB b := by simpa [plateRows] using hr
        rw [hrb] at hcat
        exact absurd (show "PLATE" = "WEAPON" from hcat) (by decide)
    · obtain ⟨d, hd, hrd⟩ := List.mem_map.mp hr
      rw [← hrd] at hcat
      exact absurd (show "BEHAVIOUR" = "WEAPON" from hcat) (by decide)
  · intro r hr hcat
    simp only [fullLog, List.mem_append] at hr
    rcases hr with (hr | hr) | hr
    · obtain ⟨d, hd, hrd⟩ := List.mem_map.mp hr
      rw [← hrd] at hcat
      exact absurd (show "WEAPON" = "BEHAVIOUR" from hcat) (by decide)
    · cases hgo : plateGo m.ocr frame (plateDets m) none with
      | none =>
        rw [hgo] at hr
        simp [plateRows] at hr
      | some b =>
        rw [hgo] at hr
        have hrb : r = plateRowB b := by simpa [plateRows] using hr
        rw [hrb] at hcat
        exact absurd (show "PLATE" = "BEHAVIOUR" from hcat) (by decide)
    · obtain ⟨d, hd, hrd⟩ := List.mem_map.mp hr
      exact ⟨d, (List.mem_filter.mp hd).1, hrd.symm, by rw [← hrd]; rfl⟩

/-- Witness for C10 at a request with one finding of each category. -/
theorem c10_row_label_content_witness :
    detect mC10 none (some frame0) = (Response.ok resC10, logC10) ∧
    plateRowOf pC2 ∈ logC10 ∧
    (logC10.filter fun r => r.category == "PLATE") = [plateRowOf pC2] ∧
    plateRowOf pC2 = { category := "PLATE", label := pC2.text,
                       conf := pC2.confidence, box := pC2.box.toRatList } ∧
    (∃ d ∈ weaponDets mC10, weaponRow dKnife = weaponRow d ∧
      (weaponRow dKnife).label = d.label) ∧
    (∃ d ∈ behavDets mC10, behaviourRow dFight = behaviourRow d ∧
      (behaviourRow dFight).label = pyLower d.label) := by
  have hdet : detect mC10 none (some frame0) = (Response.ok resC10, logC10) := by decide
  have hc := c10_row_label_content mC10 frame0 resC10 logC10 hdet
  obtain ⟨hmem, hfilter, hrow⟩ := hc.1 pC2 (by decide)
  exact ⟨hdet, hmem, hfilter, hrow,
    hc.2.1 (weaponRow dKnife) (by decide) rfl,
    hc.2.2 (behaviourRow dFight) (by decide) rfl⟩
